import Mathlib

/-!
# Verification of the two-player card-matching game server

Shallow embedding of the game core found in `src/backend/gameLogic.js` and
`src/backend/index.js`: the card/deck model, the per-room game state, the
socket event handlers (join, ready, draw, swap, discard, stack calls and
execution, abilities), end-game handling and the per-viewer state sanitizer.

Conventions of the embedding:
* JavaScript objects become Lean structures; absent/undefined optional fields
  become `Option.none` or a `false` default.
* The `players` object (socket id → player) becomes an association list
  `List (String × Player)`; `playerOrder` stays a list of ids.
* A hand is a `List (Option Card)`; JS array reads out of range yield
  `undefined`, modelled as `none`; JS writes past the end extend the array
  with holes, modelled by padding with `none`.
* JS code that can throw a `TypeError` (a property access on `undefined`)
  is modelled with `Option`: a handler returns `none` exactly when the JS
  handler would throw, and `some g'` when it completes with state `g'`.
* `Math.random()`-driven shuffling is modelled by passing the list of the
  Fisher–Yates indices `j` explicitly.
* Socket emissions (`game_notification`, `card_animation`, `stack_reveal`,
  `ability_reveal`, `game_state_update`) carry no authoritative state and
  are omitted; `sanitizeGameState` is modelled as the pure projection it is.
* The two `setTimeout` callbacks relevant to the claims (the 10-second
  phase1 → playing transition) are modelled as a separate step function.
-/

set_option maxRecDepth 100000

namespace Cambio

/-- One physical card, as built by `createDeck` in `gameLogic.js`.
`knownToPlayer` / `knownToOpponent` are absent (undefined) on fresh cards,
modelled by a `false` default. -/
structure Card where
  id : String
  suit : String
  value : String
  isFaceUp : Bool
  knownToPlayer : Bool := false
  knownToOpponent : Bool := false
deriving DecidableEq, Repr

/-- A player record as created by the `join_game` handler. -/
structure Player where
  id : String
  number : Nat
  name : String
  hand : List (Option Card)
  score : Int
  ready : Bool
  isFinalTurn : Bool
deriving DecidableEq, Repr

/-- The `status` field of a game. -/
inductive Status where
  | lobby
  | phase1
  | playing
  | finished
deriving DecidableEq, Repr

/-- The `activeAbility` object: `{ type, player }`, extended in place with
`jackPhase` / `jackMyIndex` during a Jack ability. -/
structure Ability where
  type : String
  player : String
  jackPhase : Option String := none
  jackMyIndex : Option Nat := none
deriving DecidableEq, Repr

/-- The `stackWindow` object. `createGameState` initializes it without
`caller`/`targetValue` (undefined, i.e. `none`); `call_stack` sets them. -/
structure StackWindow where
  active : Bool
  caller : Option String
  targetValue : Option String
deriving DecidableEq, Repr

/-- The per-room game state. `endTriggeredBy` is absent until `call_it`
sets it (undefined/null, i.e. `none`). -/
structure Game where
  status : Status
  players : List (String × Player)
  playerOrder : List String
  turnIndex : Nat
  deck : List Card
  discardPile : List Card
  drawnCard : Option Card
  activeAbility : Option Ability
  stackWindow : StackWindow
  endTriggeredBy : Option String
deriving DecidableEq, Repr

/-! ## Association-list and array primitives -/

/-- `players[pid]` — association-list lookup (a JS object has unique keys;
`find?` returns the first, and updates below transform matching keys). -/
def findPlayer (ps : List (String × Player)) (pid : String) : Option Player :=
  (ps.find? (fun e => e.1 == pid)).map (fun e => e.2)

/-- In-place mutation of `players[pid]`, as a pure key-wise update. -/
def mapUpdatePlayers (ps : List (String × Player)) (pid : String)
    (f : Player → Player) : List (String × Player) :=
  ps.map (fun e => if e.1 == pid then (e.1, f e.2) else e)

def lookupPlayer (g : Game) (pid : String) : Option Player :=
  findPlayer g.players pid

def updatePlayer (g : Game) (pid : String) (f : Player → Player) : Game :=
  { g with players := mapUpdatePlayers g.players pid f }

/-- `hand[i]` — a JS array read; out of range yields `undefined` (`none`). -/
def listGet (l : List (Option Card)) (i : Nat) : Option Card :=
  (l[i]?).join

/-- `hand[i] = x` — a JS array write; writing past the end extends the
array, filling the gap with holes (`none`). -/
def listSet (l : List (Option Card)) (i : Nat) (x : Option Card) :
    List (Option Card) :=
  if i < l.length then l.set i x
  else l ++ List.replicate (i - l.length) none ++ [x]

/-! ## `gameLogic.js` -/

def SUITS : List String := ["hearts", "diamonds", "clubs", "spades"]

def VALUES : List String :=
  ["A", "2", "3", "4", "5", "6", "7", "8", "9", "10", "J", "Q", "K"]

/-- `createDeck`: 13 ranks × 4 suits plus two jokers, all face-down. -/
def createDeck : List Card :=
  (SUITS.flatMap (fun s => VALUES.map (fun v =>
    { id := v ++ "_" ++ s, suit := s, value := v, isFaceUp := false })))
  ++ [{ id := "Joker_1", suit := "none", value := "Joker", isFaceUp := false },
      { id := "Joker_2", suit := "none", value := "Joker", isFaceUp := false }]

/-- One Fisher–Yates exchange `[a[i], a[j]] = [a[j], a[i]]`.  In the source
`j = Math.floor(Math.random() * (i + 1))` is always in range; out-of-range
indices (which cannot arise) are a no-op here. -/
def listSwap (l : List Card) (i j : Nat) : List Card :=
  match l[i]?, l[j]? with
  | some a, some b => (l.set i b).set j a
  | _, _ => l

/-- `shuffle`: Fisher–Yates, with the random index `j` of each step
`i = n-1, …, 1` supplied in `rand`. -/
def shuffle (deck : List Card) (rand : List Nat) : List Card :=
  ((((List.range deck.length).reverse).dropLast).zip rand).foldl
    (fun acc p => listSwap acc p.1 p.2) deck

/-- `createGameState`. -/
def createGameState : Game :=
  { status := .lobby
    players := []
    playerOrder := []
    turnIndex := 0
    deck := []
    discardPile := []
    drawnCard := none
    activeAbility := none
    stackWindow := { active := false, caller := none, targetValue := none }
    endTriggeredBy := none }

/-- The per-player part of `dealInitial`: `hand = [pop, pop, pop, pop]`
(element initializers evaluate left to right, so slot 0 receives the last
deck element), then `hand[2].knownToPlayer = true` and likewise slot 3 —
which throws if the deck ran out (`undefined.knownToPlayer`). -/
def dealHands (g : Game) (order : List String) (deck : List Card) :
    Option (Game × List Card) :=
  match order with
  | [] => some (g, deck)
  | pid :: rest =>
    match findPlayer g.players pid with
    | none => none
    | some _ =>
      let c0 := deck.getLast?
      let d0 := deck.dropLast
      let c1 := d0.getLast?
      let d1 := d0.dropLast
      let c2 := d1.getLast?
      let d2 := d1.dropLast
      let c3 := d2.getLast?
      let d3 := d2.dropLast
      match c2, c3 with
      | some card2, some card3 =>
        let hand : List (Option Card) :=
          [c0, c1, some { card2 with knownToPlayer := true },
           some { card3 with knownToPlayer := true }]
        dealHands (updatePlayer g pid (fun p => { p with hand := hand })) rest d3
      | _, _ => none

/-- `dealInitial`: shuffle a fresh deck, deal 4 cards to every player in
seat order, mark slots 2–3 privately known, store the remaining deck. -/
def dealInitial (g : Game) (rand : List Nat) : Option Game :=
  let deck := shuffle createDeck rand
  (dealHands g g.playerOrder deck).map (fun p => { p.1 with deck := p.2 })

/-- A decimal digit's value, for the `parseInt` model. -/
def digitVal (ch : Char) : Option Nat :=
  if ch.isDigit then some (ch.toNat - 48) else none

/-- Parse a leading run of decimal digits, as `parseInt` does. -/
def parseDigits : List Char → Option Nat → Option Nat
  | [], acc => acc
  | ch :: rest, acc =>
    match digitVal ch with
    | none => acc
    | some dv => parseDigits rest (some ((acc.getD 0) * 10 + dv))

/-- `parseInt` as it is applied to the numeral ranks "2" … "10": the value
of the leading digit run; a string with no leading digit gives `NaN` in
JS, modelled as 0 (never reached on the 54 deck identities). -/
def jsParseInt (s : String) : Int :=
  match parseDigits s.data none with
  | some n => (n : Int)
  | none => 0

/-- `getCardValue`. -/
def getCardValue (card : Card) : Int :=
  if card.value == "Joker" then -1
  else if card.value == "Q" && (card.suit == "hearts" || card.suit == "diamonds") then 0
  else if card.value == "A" then 1
  else if card.value == "J" || card.value == "Q" || card.value == "K" then 10
  else jsParseInt card.value

/-- `calculateScore`: reduce over the hand, skipping empty slots. -/
def calculateScore (hand : List (Option Card)) : Int :=
  hand.foldl (fun acc c =>
    match c with
    | none => acc
    | some card => acc + getCardValue card) 0

/-! ## `index.js` — shared helpers -/

/-- `promptEndGame`'s loop body over `playerOrder`: flip every hand card
face-up and recompute the score (`game.players[pId]` is read without a
guard, so an unknown id in `playerOrder` throws). -/
def promptEndLoop (g : Game) : List String → Option Game
  | [] => some g
  | pid :: rest =>
    match findPlayer g.players pid with
    | none => none
    | some p =>
      let hand2 := p.hand.map (fun co => co.map (fun c => { c with isFaceUp := true }))
      promptEndLoop
        (updatePlayer g pid (fun q =>
          { q with hand := hand2, score := calculateScore hand2 })) rest

/-- `promptEndGame`: set `status = 'finished'`, then reveal and score. -/
def promptEndGame (g : Game) : Option Game :=
  promptEndLoop { g with status := .finished } g.playerOrder

/-- `advanceTurn`: step `turnIndex` modulo the seat count, clear
`drawnCard`, and end the game instead if the player about to act is the
one who called it.  (All call sites reach this with a nonempty
`playerOrder`; `% 0` cannot arise.) -/
def advanceTurn (g : Game) : Option Game :=
  let ti := (g.turnIndex + 1) % g.playerOrder.length
  let g1 := { g with turnIndex := ti, drawnCard := none }
  let next := g1.playerOrder[ti]?
  if next.isSome ∧ g1.endTriggeredBy = next then promptEndGame g1 else some g1

/-- `checkEndGameAndAdvance`: if the acting player's hand is entirely
face-up or empty and their final flag is not yet set, set it and score;
otherwise advance the turn.  `game.players[...]` is read without a guard. -/
def checkEndGameAndAdvance (g : Game) : Option Game :=
  match g.playerOrder[g.turnIndex]? with
  | none => none
  | some pid =>
    match findPlayer g.players pid with
    | none => none
    | some p =>
      let allFaceUp := p.hand.all (fun co =>
        match co with
        | none => true
        | some c => c.isFaceUp)
      if allFaceUp ∧ p.isFinalTurn = false then
        promptEndGame (updatePlayer g pid (fun q => { q with isFinalTurn := true }))
      else advanceTurn g

/-- `handleDiscard`: settle `card` face-up on the discard pile; an ability
rank (K, J, 8, 6) suspends turn advancement, anything else advances. -/
def handleDiscard (g : Game) (card : Option Card) (senderId : String) :
    Option Game :=
  match card with
  | none => checkEndGameAndAdvance g
  | some c =>
    let g1 := { g with discardPile := g.discardPile ++ [{ c with isFaceUp := true }] }
    if c.value == "K" || c.value == "J" || c.value == "8" || c.value == "6" then
      some { g1 with activeAbility := some { type := c.value, player := senderId } }
    else checkEndGameAndAdvance g1

/-! ## `index.js` — event handlers -/

/-- The `join_game` handler (room creation and socket-room membership are
transport concerns; this is the game-state part). -/
def joinGame (g : Game) (sender name : String) : Game :=
  if g.playerOrder.length < 2 ∧ lookupPlayer g sender = none then
    { g with
        players := g.players ++
          [(sender,
            { id := sender, number := g.playerOrder.length + 1, name := name,
              hand := [none, none, none, none], score := 0, ready := false,
              isFinalTurn := false })]
        playerOrder := g.playerOrder ++ [sender] }
  else g

/-- `playerOrder.every(id => players[id].ready)` with JS evaluation order:
sequential, short-circuiting on the first `false`, throwing on a missing
player. -/
def everyReady (g : Game) : List String → Option Bool
  | [] => some true
  | pid :: rest =>
    match findPlayer g.players pid with
    | none => none
    | some p => if p.ready then everyReady g rest else some false

/-- The `player_ready` handler.  `game.players[socket.id].ready = true` is
unguarded: a sender that is not a registered player throws.  When both
players are ready in the lobby, deal and enter phase1. -/
def playerReady (g : Game) (sender : String) (rand : List Nat) : Option Game :=
  match lookupPlayer g sender with
  | none => none
  | some _ =>
    let g1 := updatePlayer g sender (fun p => { p with ready := true })
    let allReadyRes : Option Bool :=
      if g1.playerOrder.length == 2 then everyReady g1 g1.playerOrder else some false
    match allReadyRes with
    | none => none
    | some allReady =>
      if allReady ∧ g1.status = .lobby then
        (dealInitial g1 rand).map (fun g2 => { g2 with status := .phase1 })
      else some g1

/-- The body of the 10-second timer scheduled by `player_ready` (and by
`play_again`): clear the private phase1 flags on slots 2–3. -/
def clearBottomFlags (g : Game) : List String → Option Game
  | [] => some g
  | pid :: rest =>
    match findPlayer g.players pid with
    | none => none
    | some p =>
      let h1 :=
        match listGet p.hand 2 with
        | some c => listSet p.hand 2 (some { c with knownToPlayer := false })
        | none => p.hand
      let h2 :=
        match listGet h1 3 with
        | some c => listSet h1 3 (some { c with knownToPlayer := false })
        | none => h1
      clearBottomFlags (updatePlayer g pid (fun q => { q with hand := h2 })) rest

/-- The phase1 → playing timeout: a stale-state deferred callback checks
`status === 'phase1'` and is a no-op otherwise. -/
def phase1Timeout (g : Game) : Option Game :=
  if g.status = .phase1 then clearBottomFlags { g with status := .playing } g.playerOrder
  else some g

/-- The `draw_deck` handler.  Guards: seated active player, no pending
drawn card, no ability in progress.  `game.status` is never examined.
`deck.pop()` on an empty deck yields `undefined` (`none`). -/
def drawDeck (g : Game) (sender : String) : Option Game :=
  if g.playerOrder[g.turnIndex]? ≠ some sender then some g
  else if g.drawnCard.isSome || g.activeAbility.isSome then some g
  else some { g with drawnCard := g.deck.getLast?, deck := g.deck.dropLast }

/-- The `draw_discard` handler: atomically swap the top discard into the
chosen hand slot and re-enter the discard continuation with the displaced
card. -/
def drawDiscard (g : Game) (sender : String) (handIndex : Nat) : Option Game :=
  if g.playerOrder[g.turnIndex]? ≠ some sender then some g
  else if g.drawnCard.isSome || g.activeAbility.isSome || g.discardPile.isEmpty then
    some g
  else
    match g.discardPile.getLast? with
    | none => some g
    | some discardCard =>
      match lookupPlayer g sender with
      | none => none
      | some player =>
        let oldCard := listGet player.hand handIndex
        let dc := { discardCard with isFaceUp := false, knownToPlayer := false }
        let g1 := { g with discardPile := g.discardPile.dropLast }
        let g2 := updatePlayer g1 sender (fun p =>
          { p with hand := listSet p.hand handIndex (some dc) })
        handleDiscard g2 oldCard sender

/-- The `swap_drawn_card` handler.  Note: guarded only by turn and a
pending drawn card — `activeAbility` is not examined. -/
def swapDrawnCard (g : Game) (sender : String) (handIndex : Nat) : Option Game :=
  if g.playerOrder[g.turnIndex]? ≠ some sender then some g
  else
    match g.drawnCard with
    | none => some g
    | some dc =>
      match lookupPlayer g sender with
      | none => none
      | some player =>
        let oldCard := listGet player.hand handIndex
        let dc2 := { dc with isFaceUp := false, knownToPlayer := false }
        let g1 := updatePlayer { g with drawnCard := none } sender (fun p =>
          { p with hand := listSet p.hand handIndex (some dc2) })
        handleDiscard g1 oldCard sender

/-- The `discard_drawn_card` handler.  Also not guarded by `activeAbility`. -/
def discardDrawnCard (g : Game) (sender : String) : Option Game :=
  if g.playerOrder[g.turnIndex]? ≠ some sender then some g
  else
    match g.drawnCard with
    | none => some g
    | some c => handleDiscard { g with drawnCard := none } (some c) sender

/-- The `call_stack` handler: open the window on the top discard's rank. -/
def callStack (g : Game) (sender : String) : Option Game :=
  if g.discardPile.isEmpty then some g
  else if g.stackWindow.active then some g
  else
    match g.discardPile.getLast? with
    | none => some g
    | some top =>
      some { g with stackWindow :=
        { active := true, caller := some sender, targetValue := some top.value } }

/-- Lines 270–284 of `index.js` — the card movements of a successful
stack match: remove the matched card from the target's hand, push it
face-up on the discard pile, and on an offensive stack move the caller's
nominated card (if that slot holds one) into the vacated slot hidden. -/
def stackMatchMove (g : Game) (sender targetPlayerId : String)
    (handIndex : Nat) (offensiveGiveIndex : Option Nat)
    (callerPlayer : Player) (chosen : Card) : Game :=
  let g1 := updatePlayer g targetPlayerId (fun p =>
    { p with hand := listSet p.hand handIndex none })
  let g2 := { g1 with discardPile := g1.discardPile ++ [{ chosen with isFaceUp := true }] }
  if targetPlayerId ≠ sender then
    match offensiveGiveIndex with
    | none => g2
    | some gi =>
      match listGet callerPlayer.hand gi with
      | none => g2
      | some given =>
        let given2 : Card := { given with isFaceUp := false, knownToPlayer := false }
        updatePlayer
          (updatePlayer g2 sender (fun p => { p with hand := listSet p.hand gi none }))
          targetPlayerId (fun p =>
            { p with hand := listSet p.hand handIndex (some given2) })
  else g2

/-- Lines 270–300 of `index.js` — the full successful-match mutations of
`execute_stack`: the card movements, then cancel any in-progress ability,
and let the caller inherit the matched card's ability when they can use
it (8 always; K, J, 6 only with at least one card left in the caller's
hand — `callerPlayer.hand.filter(c => c !== null)` reads the hand after
the movements above, on the same mutated object). -/
def stackMatchState (g : Game) (sender targetPlayerId : String)
    (handIndex : Nat) (offensiveGiveIndex : Option Nat)
    (callerPlayer : Player) (chosen : Card) : Game :=
  let g4 := { stackMatchMove g sender targetPlayerId handIndex offensiveGiveIndex
    callerPlayer chosen with activeAbility := none }
  if chosen.value == "K" || chosen.value == "J" || chosen.value == "8" || chosen.value == "6" then
    let stackerHand := ((lookupPlayer g4 sender).map Player.hand).getD []
    if chosen.value == "8" || stackerHand.any Option.isSome then
      { g4 with activeAbility := some { type := chosen.value, player := sender } }
    else g4
  else g4

/-- The failed-stack mutations of `execute_stack`: draw one blind penalty
card from the deck into the caller's hand (only if the deck is non-empty),
then close the window. -/
def stackMismatchState (g : Game) (sender : String) : Game :=
  let g1 :=
    if g.deck.isEmpty then g
    else
      match g.deck.getLast? with
      | none => g
      | some penalty =>
        updatePlayer { g with deck := g.deck.dropLast } sender (fun p =>
          { p with hand := p.hand ++
            [some { penalty with isFaceUp := false, knownToPlayer := false }] })
  { g1 with stackWindow := { active := false, caller := none, targetValue := none } }

/-- `playerOrder.some(pId => players[pId].hand.every(c => c === null))`
with JS evaluation order (short-circuit, throw on missing player). -/
def anyEmptyCheck (g : Game) : List String → Option Bool
  | [] => some false
  | pid :: rest =>
    match findPlayer g.players pid with
    | none => none
    | some p => if p.hand.all Option.isNone then some true else anyEmptyCheck g rest

/-- The `execute_stack` handler.  `game.players[targetPlayerId]` and
`game.players[socket.id]` are dereferenced without a guard (`.hand` /
`.name`), so an unknown id throws. -/
def executeStack (g : Game) (sender targetPlayerId : String) (handIndex : Nat)
    (offensiveGiveIndex : Option Nat) : Option Game :=
  if g.stackWindow.active = false ∨ g.stackWindow.caller ≠ some sender then some g
  else
    match lookupPlayer g targetPlayerId with
    | none => none
    | some targetPlayer =>
      match lookupPlayer g sender with
      | none => none
      | some callerPlayer =>
        let chosenCard := listGet targetPlayer.hand handIndex
        let matched : Option Card :=
          match chosenCard with
          | some c => if some c.value = g.stackWindow.targetValue then some c else none
          | none => none
        match matched with
        | some c =>
          let m := stackMatchState g sender targetPlayerId handIndex
            offensiveGiveIndex callerPlayer c
          let mw := { m with stackWindow :=
            { active := false, caller := none, targetValue := none } }
          match anyEmptyCheck mw mw.playerOrder with
          | none => none
          | some true => promptEndGame { mw with activeAbility := none }
          | some false =>
            if mw.activeAbility.isNone then checkEndGameAndAdvance mw else some mw
        | none => some (stackMismatchState g sender)

/-- The unconditional two-slot exchange of the King branch of
`play_ability_target` (lines 353–357): `temp = p1.hand[my]`,
`p1.hand[my] = p2.hand[opp]`, `p2.hand[opp] = temp`, with both reads
taken before the writes and the writes applied in order. -/
def kSwapState (g : Game) (sender opponentId : String) (myIndex oppIndex : Nat)
    (p1 p2 : Player) : Game :=
  let temp := listGet p1.hand myIndex
  let fromOpp := listGet p2.hand oppIndex
  let g1 := updatePlayer g sender (fun p =>
    { p with hand := listSet p.hand myIndex fromOpp })
  updatePlayer g1 opponentId (fun p =>
    { p with hand := listSet p.hand oppIndex temp })

/-- The `play_ability_target` handler.  The guard compares the sender and
declared type against `activeAbility` (optional chaining, no throw); the
branches dereference the involved players and slots without guards. -/
def playAbilityTarget (g : Game) (sender : String) (ty : String)
    (myIndex : Nat) (opponentId : String) (oppIndex : Nat) : Option Game :=
  match g.activeAbility with
  | none => some g
  | some ab =>
    if ab.player ≠ sender ∨ ab.type ≠ ty then some g
    else if ty == "K" then
      match lookupPlayer g sender, lookupPlayer g opponentId with
      | some p1, some p2 =>
        let gs := kSwapState g sender opponentId myIndex oppIndex p1 p2
        checkEndGameAndAdvance { gs with activeAbility := none }
      | _, _ => none
    else if ty == "J" then
      let ab2 : Ability := { ab with jackPhase := some "opponent_choose", jackMyIndex := some myIndex }
      some { g with activeAbility := some ab2 }
    else if ty == "8" then
      match lookupPlayer g opponentId with
      | none => none
      | some opp =>
        match listGet opp.hand oppIndex with
        | none => none
        | some c =>
          let g1 := updatePlayer g opponentId (fun p =>
            { p with hand := listSet p.hand oppIndex (some { c with knownToOpponent := true }) })
          checkEndGameAndAdvance { g1 with activeAbility := none }
    else if ty == "6" then
      match lookupPlayer g sender with
      | none => none
      | some p1 =>
        match listGet p1.hand myIndex with
        | none => none
        | some c =>
          let g1 := updatePlayer g sender (fun p =>
            { p with hand := listSet p.hand myIndex (some { c with knownToPlayer := true }) })
          checkEndGameAndAdvance { g1 with activeAbility := none }
    else checkEndGameAndAdvance { g with activeAbility := none }

/-! ## `sanitizeGameState` -/

/-- The sentinel a hidden hand card serializes to: rank, suit and identity
replaced (`'?'`, `'?'`, `'hidden_' + i`); other fields kept. -/
def hiddenHandCard (i : Nat) (c : Card) : Card :=
  { c with value := "?", suit := "?", id := "hidden_" ++ toString i }

/-- Per-slot redaction applied by `sanitizeGameState` to the hand of
player `pid` as seen by `viewerId`. -/
def sanitizeCardSlot (status : Status) (viewerId pid : String) (i : Nat)
    (co : Option Card) : Option Card :=
  match co with
  | none => none
  | some card =>
    if card.isFaceUp = false ∧ status ≠ .finished then
      if (status = .phase1 ∧ pid = viewerId ∧ (i = 2 ∨ i = 3)) ∨
         (card.knownToPlayer = true ∧ pid = viewerId) ∨
         (card.knownToOpponent = true ∧ pid ≠ viewerId) then some card
      else some (hiddenHandCard i card)
    else some card

/-- `hand.forEach((card, i) => …)` — index-aware map over the hand. -/
def listMapIdxGo (f : Nat → Option Card → Option Card) (i : Nat) :
    List (Option Card) → List (Option Card)
  | [] => []
  | c :: rest => f i c :: listMapIdxGo f (i + 1) rest

/-- `sanitizeGameState`: the pure per-viewer projection.  Redaction only
runs when `status` is `playing`, `phase1` or `finished`; the drawn card is
additionally hidden from everyone but the active player while the game is
not finished. -/
def sanitizeGameState (g : Game) (viewerId : String) : Game :=
  if g.status = .playing ∨ g.status = .phase1 ∨ g.status = .finished then
    let g1 := { g with players := g.players.map (fun e =>
      (e.1, { e.2 with hand := listMapIdxGo (sanitizeCardSlot g.status viewerId e.1) 0 e.2.hand })) }
    match g.drawnCard with
    | some dc =>
      if g.playerOrder[g.turnIndex]? ≠ some viewerId ∧ g.status ≠ .finished then
        let dc2 : Card := { dc with value := "?", suit := "?", id := "hidden_drawn" }
        { g1 with drawnCard := some dc2 }
      else g1
    | none => g1
  else g

/-! ## Spec-side definitions

These two definitions are transcribed from the specification's words, not
from the code; theorems below compare them with the code-derived
definitions. -/

/-- Modelled from the spec (§4.6): the viewers entitled to see a face-down
hand card — the owner during phase1 on slots 2–3, the owner of a
privately-known card, the non-owner of a card known to the opponent, or
anyone once the game is finished. -/
def Entitled (status : Status) (viewerId pid : String) (i : Nat) (c : Card) : Prop :=
  (status = .phase1 ∧ pid = viewerId ∧ (i = 2 ∨ i = 3)) ∨
  (c.knownToPlayer = true ∧ pid = viewerId) ∨
  (c.knownToOpponent = true ∧ pid ≠ viewerId) ∨
  status = .finished

instance (status : Status) (viewerId pid : String) (i : Nat) (c : Card) :
    Decidable (Entitled status viewerId pid i c) := by
  unfold Entitled
  infer_instance

/-- Modelled from the spec (§4.6 rule): what a hand slot must serialize
to for a given viewer — a face-down card is replaced by the unknown
sentinel exactly when the viewer is not entitled to it. -/
def specRedactSlot (st : Status) (viewerId pid : String) (i : Nat)
    (co : Option Card) : Option Card :=
  match co with
  | none => none
  | some c =>
    if c.isFaceUp = false ∧ ¬ Entitled st viewerId pid i c
    then some (hiddenHandCard i c)
    else some c

/-- Modelled from the spec (§4.1 point values): Joker −1, red Queen 0,
Ace 1, Jack / black Queen / King 10, numerals their face value. -/
def specCardValue (c : Card) : Int :=
  if c.value = "Joker" then -1
  else if c.value = "Q" ∧ (c.suit = "hearts" ∨ c.suit = "diamonds") then 0
  else if c.value = "A" then 1
  else if c.value = "J" ∨ c.value = "K" ∨ (c.value = "Q" ∧ (c.suit = "clubs" ∨ c.suit = "spades")) then 10
  else match c.value with
    | "2" => 2
    | "3" => 3
    | "4" => 4
    | "5" => 5
    | "6" => 6
    | "7" => 7
    | "8" => 8
    | "9" => 9
    | "10" => 10
    | _ => 0

/-! ## Concrete fixtures and replayed games

The `replayA`/`replayB` chains below replay full games from
`createGameState` through the handlers, so every state they reach is
reachable in the running server (the shuffle randomness is a legitimate
Fisher–Yates index sequence). -/

/-- The multiset (as a list) of card identities across every container of
a game: deck, discard pile, all hand slots, and the drawn card. -/
def cardIds (g : Game) : List String :=
  g.deck.map Card.id ++ g.discardPile.map Card.id ++
  (g.players.map (fun e => e.2.hand.filterMap (fun co => co.map Card.id))).flatten ++
  (match g.drawnCard with
   | some c => [c.id]
   | none => [])

def mkCard (v s : String) : Card :=
  { id := v ++ "_" ++ s, suit := s, value := v, isFaceUp := false }

def mkPlayer (pid : String) (n : Nat) (h : List (Option Card)) : Player :=
  { id := pid, number := n, name := pid, hand := h, score := 0, ready := true,
    isFinalTurn := false }

/-- Both players joined, still in the lobby. -/
def replayA0 : Game := joinGame (joinGame createGameState "P1" "Alice") "P2" "Bob"

/-- Fisher–Yates indices realizing the identity permutation except that
position 53 is exchanged with position 6 (so player 1 is dealt 7♥ in
slot 0). -/
def randA : List Nat := 6 :: ((List.range 52).reverse.map (fun n => n + 1))

def replayA4 : Option Game :=
  (playerReady replayA0 "P1" randA).bind (fun g => playerReady g "P2" randA)

def replayA5 : Option Game := replayA4.bind phase1Timeout

def replayA6 : Option Game := replayA5.bind (fun g => drawDeck g "P1")

def replayA7 : Option Game := replayA6.bind (fun g => discardDrawnCard g "P1")

def replayA8 : Option Game := replayA7.bind (fun g => drawDeck g "P2")

/-- Player 1 has discarded a 7; player 2 has drawn 6♠ and holds it as the
pending `drawnCard`; player 1 has called stack on the 7. -/
def replayA9 : Option Game := replayA8.bind (fun g => callStack g "P1")

/-- Player 1 executes the stack on their own 7♥ — a successful match. -/
def replayA10 : Option Game := replayA9.bind (fun g => executeStack g "P1" "P1" 0 none)

/-- A third socket joins the full room: it is not registered as a player. -/
def replayC3join : Game := joinGame replayA0 "P3" "Carol"

/-- Fisher–Yates indices: identity except positions 53 ↔ 20 and 45 ↔ 7
(player 1 is dealt 8♦ in slot 0, and the first card drawn is 8♥). -/
def randB : List Nat :=
  20 :: [52, 51, 50, 49, 48, 47, 46] ++ [7] ++ ((List.range 44).reverse.map (fun n => n + 1))

def replayB4 : Option Game :=
  (playerReady replayA0 "P1" randB).bind (fun g => playerReady g "P2" randB)

def replayB5 : Option Game := replayB4.bind phase1Timeout

def replayB6 : Option Game := replayB5.bind (fun g => drawDeck g "P1")

def replayB7 : Option Game := replayB6.bind (fun g => discardDrawnCard g "P1")

def replayB8 : Option Game := replayB7.bind (fun g => playAbilityTarget g "P1" "8" 0 "P2" 0)

def replayB9 : Option Game := replayB8.bind (fun g => drawDeck g "P2")

def replayB10 : Option Game := replayB9.bind (fun g => callStack g "P1")

/-- Player 1's stack on their own 8♦ matches while player 2 still holds
the drawn 6♠: the caller inherits the 8 ability, so afterwards
`activeAbility` is non-empty *and* a drawn card is pending. -/
def replayB11 : Option Game := replayB10.bind (fun g => executeStack g "P1" "P1" 0 none)

/-- Player 2 swaps the pending drawn card while the ability is active. -/
def replayB12 : Option Game := replayB11.bind (fun g => swapDrawnCard g "P2" 1)

/-- A lobby game that holds a face-down card (such a state is not
reachable in play — hands are dealt only on the transition to phase1 —
but the claim quantifies over every game state). -/
def gLobbyCE : Game :=
  { status := .lobby
    players := [("a", mkPlayer "a" 1 [some (mkCard "A" "hearts"), none, none, none])]
    playerOrder := ["a"], turnIndex := 0, deck := [], discardPile := []
    drawnCard := none, activeAbility := none
    stackWindow := { active := false, caller := none, targetValue := none }
    endTriggeredBy := none }

/-- A stack window on rank 8 where the matched card is the target's last
card: the match empties the target's hand. -/
def gC5CE : Game :=
  { status := .playing
    players := [("P1", mkPlayer "P1" 1 [some (mkCard "2" "hearts"), some (mkCard "3" "hearts"), none, none]),
                ("P2", mkPlayer "P2" 2 [some (mkCard "8" "clubs"), none, none, none])]
    playerOrder := ["P1", "P2"], turnIndex := 0
    deck := [mkCard "4" "hearts"]
    discardPile := [{ mkCard "8" "spades" with isFaceUp := true }]
    drawnCard := none, activeAbility := none
    stackWindow := { active := true, caller := some "P1", targetValue := some "8" }
    endTriggeredBy := none }

/-- A card the owner privately knows (as after a 6-peek or during
phase1). -/
def cKnown : Card := { mkCard "5" "hearts" with knownToPlayer := true }

/-- A pending King ability for player 1, whose slot 0 holds a privately
known card. -/
def gC6CE : Game :=
  { status := .playing
    players := [("P1", mkPlayer "P1" 1 [some cKnown, some (mkCard "3" "hearts"), none, none]),
                ("P2", mkPlayer "P2" 2 [some (mkCard "9" "clubs"), some (mkCard "4" "clubs"), none, none])]
    playerOrder := ["P1", "P2"], turnIndex := 0
    deck := [], discardPile := [{ mkCard "K" "spades" with isFaceUp := true }]
    drawnCard := none, activeAbility := some { type := "K", player := "P1" }
    stackWindow := { active := false, caller := none, targetValue := none }
    endTriggeredBy := none }

/-- The acting player's hand is entirely empty and their final flag is
not yet set; they discard the pending drawn card. -/
def gC7CE : Game :=
  { status := .playing
    players := [("P1", mkPlayer "P1" 1 [none, none, none, none]),
                ("P2", mkPlayer "P2" 2 [some (mkCard "9" "clubs"), none, none, none])]
    playerOrder := ["P1", "P2"], turnIndex := 0
    deck := [], discardPile := []
    drawnCard := some (mkCard "7" "hearts"), activeAbility := none
    stackWindow := { active := false, caller := none, targetValue := none }
    endTriggeredBy := none }

/-- A stack window on rank 9 with an exhausted deck; the chosen card is a
5, so the stack mismatches. -/
def gC8CE : Game :=
  { status := .playing
    players := [("P1", mkPlayer "P1" 1 [some (mkCard "2" "hearts"), some (mkCard "3" "hearts"), some (mkCard "4" "hearts"), some (mkCard "5" "hearts")]),
                ("P2", mkPlayer "P2" 2 [some (mkCard "5" "clubs"), none, none, none])]
    playerOrder := ["P1", "P2"], turnIndex := 0
    deck := [], discardPile := [{ mkCard "9" "spades" with isFaceUp := true }]
    drawnCard := none, activeAbility := none
    stackWindow := { active := true, caller := some "P1", targetValue := some "9" }
    endTriggeredBy := none }

/-- Well-formedness used as a hypothesis of the general theorems: every
seat in `playerOrder` is a registered player (true of every reachable
state; `join_game` is the only writer of `playerOrder`). -/
def wfPlayers (g : Game) : Prop :=
  ∀ pid ∈ g.playerOrder, (lookupPlayer g pid).isSome = true

instance (g : Game) : Decidable (wfPlayers g) := by
  unfold wfPlayers
  infer_instance

/-- The identities of a player's hand, slot by slot. -/
def handIds (p : Player) : List (Option String) :=
  p.hand.map (Option.map Card.id)

/-- A finished game in which the active player can nevertheless still
draw: the draw guards never look at `status`. -/
def gC10W : Game :=
  { status := .finished
    players := [("P1", mkPlayer "P1" 1 [some (mkCard "2" "hearts"), none, none, none]),
                ("P2", mkPlayer "P2" 2 [some (mkCard "3" "clubs"), none, none, none])]
    playerOrder := ["P1", "P2"], turnIndex := 0
    deck := [mkCard "4" "diamonds"]
    discardPile := [{ mkCard "9" "spades" with isFaceUp := true }]
    drawnCard := none, activeAbility := none
    stackWindow := { active := false, caller := none, targetValue := none }
    endTriggeredBy := none }

/-! ## Refutations and bug witnesses -/

/-- C1 (counterexample): the claim quantifies over every game state, but
`sanitizeGameState` redacts nothing while `status = 'lobby'`: a face-down
hand card that no entitlement covers is serialized to viewer "b" with its
true rank, suit and identity intact. -/
theorem c1_lobby_not_redacted :
    (mkCard "A" "hearts").isFaceUp = false ∧
    ¬ Entitled gLobbyCE.status "b" "a" 0 (mkCard "A" "hearts") ∧
    (lookupPlayer (sanitizeGameState gLobbyCE "b") "a").map (fun p => listGet p.hand 0) =
      some (some (mkCard "A" "hearts")) ∧
    (mkCard "A" "hearts").value ≠ "?" := by
  refine ⟨rfl, by decide, by decide, by decide⟩

/-- C2 (bug witness): a game replayed from `createGameState` through the
handlers reaches, after player 1's stack call, a state holding all 54 card
identities with 6♠ as player 2's pending drawn card; executing the
(successful) stack completes normally but destroys 6♠ — the multiset of
identities shrinks to 53, violating the conservation invariant.  The
destruction happens because `checkEndGameAndAdvance → advanceTurn` clears
`drawnCard` after an out-of-turn stack. -/
theorem c2_conservation_violated :
    replayA9.map (fun g => ((cardIds g).length, (cardIds g).count "6_spades", g.drawnCard.map Card.id)) =
      some (54, 1, some "6_spades") ∧
    replayA10.map (fun g => ((cardIds g).length, (cardIds g).count "6_spades")) =
      some (53, 0) := by
  exact ⟨by decide, by decide⟩

/-- C3 (bug witness): two malformed inbound events crash instead of
degrading to a no-op.  `player_ready` from a third socket that joined the
full room throws (`game.players[socket.id].ready` on `undefined`), and
`execute_stack` from the stack caller with an unknown `targetPlayerId`
throws (`targetPlayer.hand` on `undefined`).  Both are modelled as the
handler returning `none`. -/
theorem c3_handlers_throw :
    lookupPlayer replayC3join "P3" = none ∧
    replayC3join.playerOrder.length = 2 ∧
    playerReady replayC3join "P3" randA = none ∧
    replayA9.map (fun g => g.stackWindow.caller) = some (some "P1") ∧
    replayA9.bind (fun g => executeStack g "P1" "ghost" 0 none) = none := by
  refine ⟨by decide, by decide, by decide, by decide, by decide⟩

/-- C4 (counterexample): a replayed game reaches a state where
`activeAbility` is non-empty (player 1 inherited an 8 ability from a
stack) while player 2 still holds the pending drawn card; player 2's
`swap_drawn_card` is then accepted and mutates the state (the discard pile
grows), contradicting the claim that every draw/discard action is rejected
with no state change while an ability is active. -/
theorem c4_swap_accepted_mid_ability :
    replayB11.map (fun g => (g.activeAbility.isSome, g.drawnCard.isSome, g.discardPile.length)) =
      some (true, true, 2) ∧
    replayB12.map (fun g => g.discardPile.length) = some 3 := by
  exact ⟨by decide, by decide⟩

/-- C5 (counterexample): the chosen card's rank is 8 and it matches the
window's target value, yet after `execute_stack` completes no
`activeAbility` is held by the caller: the match emptied the target's
hand, so the game ended immediately and the inherited ability was
cleared — the claimed "exactly when that rank is 8" fails. -/
theorem c5_ability_overridden_by_empty_hand :
    gC5CE.stackWindow.targetValue = some "8" ∧
    (lookupPlayer gC5CE "P2").map (fun p => (listGet p.hand 0).map Card.value) =
      some (some "8") ∧
    (executeStack gC5CE "P1" "P2" 0 none).map (fun g => (g.activeAbility, g.status)) =
      some (none, .finished) := by
  refine ⟨rfl, by decide, by decide⟩

/-- C6 (counterexample): the King swap moves the card records verbatim and
never resets their visibility flags: a privately-known card swapped into
the opponent's hand is still `knownToPlayer` after the handler completes,
contradicting "both swapped cards become hidden again (face-down and not
privately known)". -/
theorem c6_swap_keeps_known_flag :
    cKnown.knownToPlayer = true ∧
    (playAbilityTarget gC6CE "P1" "K" 0 "P2" 0).map (fun g =>
      ((lookupPlayer g "P2").map (fun p => listGet p.hand 0), g.status)) =
      some (some (some cKnown), .playing) := by
  refine ⟨rfl, by decide⟩

/-- C7 (counterexample): a discard-resolving action by a player whose hand
is entirely empty and whose final flag is unset sets the flag *and*
transitions the game to `finished` (scoring) at that very moment,
contradicting the claim that play continues without immediate scoring. -/
theorem c7_attrition_finishes_immediately :
    (lookupPlayer gC7CE "P1").map Player.isFinalTurn = some false ∧
    (lookupPlayer gC7CE "P1").map (fun p => p.hand.all Option.isNone) = some true ∧
    (discardDrawnCard gC7CE "P1").map (fun g =>
      (g.status, (lookupPlayer g "P1").map Player.isFinalTurn)) =
      some (.finished, some true) := by
  refine ⟨by decide, by decide, by decide⟩

/-- C8 (counterexample): a mismatched stack with an exhausted deck leaves
the caller's hand unchanged — no penalty card is drawn — contradicting
the claim that the caller's hand grows by exactly one card; the window
still closes and the discard pile is untouched. -/
theorem c8_no_penalty_when_deck_empty :
    gC8CE.deck = [] ∧
    (lookupPlayer gC8CE "P2").map (fun p => (listGet p.hand 0).map Card.value) =
      some (some "5") ∧
    gC8CE.stackWindow.targetValue = some "9" ∧
    (lookupPlayer gC8CE "P1").map (fun p => p.hand.length) = some 4 ∧
    (executeStack gC8CE "P1" "P2" 0 none).map (fun g =>
      ((lookupPlayer g "P1").map (fun p => p.hand.length), g.stackWindow.active,
        g.discardPile.length)) =
      some (some 4, false, 1) := by
  refine ⟨rfl, by decide, rfl, by decide, by decide⟩

/-! ## Helper lemmas about the state primitives -/

theorem findPlayer_mapUpdate (ps : List (String × Player)) (pid k : String)
    (f : Player → Player) :
    findPlayer (mapUpdatePlayers ps pid f) k =
      (findPlayer ps k).map (fun p => if k = pid then f p else p) := by
  induction ps with
  | nil => rfl
  | cons e rest ih =>
    simp only [mapUpdatePlayers, List.map_cons, findPlayer] at *
    by_cases hk : e.1 = k
    · subst hk
      by_cases hp : e.1 = pid
      · subst hp
        simp [List.find?_cons_of_pos]
      · simp [List.find?_cons_of_pos, hp, beq_iff_eq]
    · by_cases hp : e.1 = pid
      · subst hp
        simpa [List.find?_cons_of_neg, hk, beq_iff_eq] using ih
      · simpa [List.find?_cons_of_neg, hk, hp, beq_iff_eq] using ih

theorem lookupPlayer_updatePlayer (g : Game) (pid k : String) (f : Player → Player) :
    lookupPlayer (updatePlayer g pid f) k =
      (lookupPlayer g k).map (fun p => if k = pid then f p else p) := by
  simp [lookupPlayer, updatePlayer, findPlayer_mapUpdate]

theorem lookupPlayer_updatePlayer_isSome (g : Game) (pid k : String) (f : Player → Player) :
    (lookupPlayer (updatePlayer g pid f) k).isSome = (lookupPlayer g k).isSome := by
  rw [lookupPlayer_updatePlayer]
  cases lookupPlayer g k <;> simp

theorem updatePlayer_playerOrder (g : Game) (pid : String) (f : Player → Player) :
    (updatePlayer g pid f).playerOrder = g.playerOrder := rfl

theorem updatePlayer_status (g : Game) (pid : String) (f : Player → Player) :
    (updatePlayer g pid f).status = g.status := rfl

theorem listSet_getElem_self (l : List (Option Card)) (i : Nat) (x : Option Card) :
    (listSet l i x)[i]? = some x := by
  unfold listSet
  by_cases h : i < l.length
  · simp [h]
  · simp only [h, if_false]
    rw [List.append_assoc, List.getElem?_append_right (by omega)]
    rw [List.getElem?_append_right (by simp [List.length_replicate])]
    simp [List.length_replicate]

theorem listGet_listSet (l : List (Option Card)) (i : Nat) (x : Option Card) :
    listGet (listSet l i x) i = x := by
  simp [listGet, listSet_getElem_self]

theorem optionJoinMap {α β : Type} (f : α → β) (o : Option (Option α)) :
    (o.join).map f = ((o.map (Option.map f)).join) := by
  cases o with
  | none => rfl
  | some o2 => cases o2 <;> rfl

theorem listGet_eq_handIds (p : Player) (i : Nat) :
    (listGet p.hand i).map Card.id = ((handIds p)[i]?).join := by
  unfold listGet handIds
  rw [List.getElem?_map]
  cases p.hand[i]? with
  | none => rfl
  | some co => cases co <;> rfl

theorem lookupPlayer_setStatus (g : Game) (s : Status) (k : String) :
    lookupPlayer { g with status := s } k = lookupPlayer g k := rfl

theorem lookupPlayer_setDiscard (g : Game) (d : List Card) (k : String) :
    lookupPlayer { g with discardPile := d } k = lookupPlayer g k := rfl

theorem handIds_map_faceUp (h : List (Option Card)) :
    (h.map (fun co => co.map (fun c => { c with isFaceUp := true }))).map (Option.map Card.id) =
      h.map (Option.map Card.id) := by
  rw [List.map_map]
  apply List.map_congr_left
  intro a _
  cases a <;> rfl

/-- `promptEndGame`'s reveal-and-score loop completes on well-formed seats
and only flips cards face-up and recomputes scores: status, seats, final
flags and hand identities are untouched. -/
theorem promptEndLoop_spec (order : List String) :
    ∀ g : Game, (∀ pid ∈ order, (lookupPlayer g pid).isSome = true) →
    ∃ g', promptEndLoop g order = some g' ∧
      g'.status = g.status ∧
      g'.playerOrder = g.playerOrder ∧
      (∀ k, (lookupPlayer g' k).isSome = (lookupPlayer g k).isSome) ∧
      (∀ k, (lookupPlayer g' k).map Player.isFinalTurn =
        (lookupPlayer g k).map Player.isFinalTurn) ∧
      (∀ k, (lookupPlayer g' k).map handIds = (lookupPlayer g k).map handIds) := by
  induction order with
  | nil =>
    intro g _
    exact ⟨g, rfl, rfl, rfl, fun _ => rfl, fun _ => rfl, fun _ => rfl⟩
  | cons pid rest ih =>
    intro g hwf
    have hpid := hwf pid (List.mem_cons_self _ _)
    obtain ⟨p, hp⟩ := Option.isSome_iff_exists.mp hpid
    have hp2 : findPlayer g.players pid = some p := hp
    have hstep : promptEndLoop g (pid :: rest) =
        promptEndLoop (updatePlayer g pid (fun q =>
          { q with
            hand := p.hand.map (fun co => co.map (fun c => { c with isFaceUp := true })),
            score := calculateScore (p.hand.map (fun co =>
              co.map (fun c => { c with isFaceUp := true }))) })) rest := by
      conv_lhs => rw [promptEndLoop, hp2]
    obtain ⟨g', hrun, hst, hord, hsome, hfin, hids⟩ :=
      ih (updatePlayer g pid (fun q =>
        { q with
          hand := p.hand.map (fun co => co.map (fun c => { c with isFaceUp := true })),
          score := calculateScore (p.hand.map (fun co =>
            co.map (fun c => { c with isFaceUp := true }))) }))
        (fun pid2 hmem => by
          rw [lookupPlayer_updatePlayer_isSome]
          exact hwf pid2 (List.mem_cons_of_mem _ hmem))
    refine ⟨g', by rw [hstep]; exact hrun, hst, hord, ?_, ?_, ?_⟩
    · intro k
      rw [hsome k, lookupPlayer_updatePlayer_isSome]
    · intro k
      rw [hfin k, lookupPlayer_updatePlayer]
      cases lookupPlayer g k with
      | none => rfl
      | some q =>
        by_cases hkp : k = pid
        · simp [hkp]
        · simp [hkp]
    · intro k
      rw [hids k, lookupPlayer_updatePlayer]
      by_cases hkp : k = pid
      · subst hkp
        rw [hp]
        simp [handIds, handIds_map_faceUp]
        intro a _
        cases a <;> rfl
      · cases lookupPlayer g k <;> simp [hkp]

/-- `advanceTurn` completes on well-formed seats and never changes hand
identities (its `promptEndGame` branch only flips cards face-up). -/
theorem advanceTurn_spec (g : Game) (hwf : wfPlayers g) :
    ∃ g', advanceTurn g = some g' ∧
      (∀ k, (lookupPlayer g' k).map handIds = (lookupPlayer g k).map handIds) := by
  simp only [advanceTurn]
  split
  · obtain ⟨g', hrun, _, _, _, _, hids⟩ :=
      promptEndLoop_spec g.playerOrder
        { g with turnIndex := (g.turnIndex + 1) % g.playerOrder.length,
                 drawnCard := none, status := .finished }
        (fun pid hmem => hwf pid hmem)
    exact ⟨g', hrun, hids⟩
  · exact ⟨_, rfl, fun k => rfl⟩

/-- `checkEndGameAndAdvance` completes when the seat at `turnIndex` is a
registered player and every seat is registered, and never changes hand
identities. -/
theorem checkEnd_spec (g : Game) (hts : (g.playerOrder[g.turnIndex]?).isSome = true)
    (hwf : wfPlayers g) :
    ∃ g', checkEndGameAndAdvance g = some g' ∧
      (∀ k, (lookupPlayer g' k).map handIds = (lookupPlayer g k).map handIds) := by
  obtain ⟨pid, hpid⟩ := Option.isSome_iff_exists.mp hts
  have hmem : pid ∈ g.playerOrder := List.getElem?_mem hpid
  obtain ⟨p, hp⟩ := Option.isSome_iff_exists.mp (hwf pid hmem)
  have hp2 : findPlayer g.players pid = some p := hp
  unfold checkEndGameAndAdvance
  simp only [hpid, hp2]
  split
  · have hwf2 : wfPlayers (updatePlayer g pid (fun q => { q with isFinalTurn := true })) := by
      intro pid2 hmem2
      rw [lookupPlayer_updatePlayer_isSome]
      exact hwf pid2 hmem2
    unfold promptEndGame
    obtain ⟨g', hrun, _, _, _, _, hids⟩ :=
      promptEndLoop_spec
        (updatePlayer g pid (fun q => { q with isFinalTurn := true })).playerOrder
        { updatePlayer g pid (fun q => { q with isFinalTurn := true }) with status := .finished }
        (fun pid2 hmem2 => hwf2 pid2 hmem2)
    refine ⟨g', hrun, fun k => ?_⟩
    rw [hids k, lookupPlayer_setStatus, lookupPlayer_updatePlayer]
    cases lookupPlayer g k with
    | none => rfl
    | some q =>
      by_cases hkp : k = pid
      · simp [hkp, handIds]
      · simp [hkp]
  · exact advanceTurn_spec g hwf

/-- `handleDiscard` completes under the same conditions and never changes
hand identities (the discarded card was removed from every container
before the call). -/
theorem handleDiscard_spec (g : Game) (card : Option Card) (sender : String)
    (hts : (g.playerOrder[g.turnIndex]?).isSome = true) (hwf : wfPlayers g) :
    ∃ g', handleDiscard g card sender = some g' ∧
      (∀ k, (lookupPlayer g' k).map handIds = (lookupPlayer g k).map handIds) := by
  cases card with
  | none => exact checkEnd_spec g hts hwf
  | some c =>
    simp only [handleDiscard]
    split
    · exact ⟨_, rfl, fun k => rfl⟩
    · exact checkEnd_spec
        { g with discardPile := g.discardPile ++ [{ c with isFaceUp := true }] } hts hwf

/-! ## Claim theorems -/

/-- C4 (amended): while `activeAbility` is non-empty, `draw_deck` and
`draw_discard` from any player are rejected with no state change; unlike
the claim's list, `swap_drawn_card` and `discard_drawn_card` are guarded
only by turn and a pending drawn card, not by `activeAbility`, and can
proceed mid-ability (see the counterexample). -/
theorem c4_draws_rejected_mid_ability (g : Game) (sender : String) (i : Nat)
    (hab : g.activeAbility.isSome = true) :
    drawDeck g sender = some g ∧ drawDiscard g sender i = some g := by
  constructor
  · unfold drawDeck
    split
    · rfl
    · rw [if_pos (by simp [hab])]
  · unfold drawDiscard
    split
    · rfl
    · rw [if_pos (by simp [hab])]

/-- C4 witness. -/
theorem c4_draws_rejected_mid_ability_witness :
    drawDeck gC6CE "P1" = some gC6CE ∧ drawDiscard gC6CE "P1" 0 = some gC6CE :=
  c4_draws_rejected_mid_ability gC6CE "P1" 0 rfl

theorem calculateScore_foldl (hand : List (Option Card)) : ∀ acc : Int,
    hand.foldl (fun acc c =>
      match c with
      | none => acc
      | some card => acc + getCardValue card) acc =
      acc + ((hand.filterMap id).map getCardValue).sum := by
  induction hand with
  | nil => intro acc; simp
  | cons co rest ih =>
    intro acc
    cases co with
    | none => simpa using ih acc
    | some c =>
      simp only [List.foldl_cons, List.filterMap_cons, id, List.map_cons, List.sum_cons]
      rw [ih (acc + getCardValue c)]
      ring

/-- C9: `getCardValue` is total over the 54 deck identities and agrees
with the spec's value table (Joker −1, red Queen 0, Ace 1, J/black Q/K 10,
numerals their face value), and `calculateScore` is the sum of
`getCardValue` over the non-empty slots of the hand. -/
theorem c9_card_values_and_score :
    (∀ c ∈ createDeck, getCardValue c = specCardValue c) ∧
    (∀ hand : List (Option Card),
      calculateScore hand = ((hand.filterMap id).map getCardValue).sum) := by
  constructor
  · decide
  · intro hand
    simpa using calculateScore_foldl hand 0

/-- C9 witness. -/
theorem c9_card_values_and_score_witness :
    getCardValue { id := "Joker_1", suit := "none", value := "Joker", isFaceUp := false } =
      specCardValue { id := "Joker_1", suit := "none", value := "Joker", isFaceUp := false } :=
  c9_card_values_and_score.1 _ (by decide)

/-- C7 (amended): immediately after any discard-resolving action (via the
common continuation `checkEndGameAndAdvance`), if the acting player's hand
is entirely face-up or empty and their `isFinalTurn` flag is unset, the
flag becomes true and the game transitions directly to `finished`
(immediate scoring) at that moment; once the flag is set the condition
does not retrigger — the turn merely advances. -/
theorem c7_final_flag_and_finish (g : Game) (pid : String) (p : Player)
    (hturn : g.playerOrder[g.turnIndex]? = some pid)
    (hlp : lookupPlayer g pid = some p)
    (hface : p.hand.all (fun co =>
      match co with
      | none => true
      | some c => c.isFaceUp) = true)
    (hwf : wfPlayers g) :
    (p.isFinalTurn = false →
      ∃ g', checkEndGameAndAdvance g = some g' ∧
        (lookupPlayer g' pid).map Player.isFinalTurn = some true ∧
        g'.status = .finished) ∧
    (p.isFinalTurn = true → checkEndGameAndAdvance g = advanceTurn g) := by
  have hp2 : findPlayer g.players pid = some p := hlp
  constructor
  · intro hfin
    unfold checkEndGameAndAdvance
    simp only [hturn, hp2]
    rw [if_pos ⟨hface, hfin⟩]
    unfold promptEndGame
    have hwf2 : ∀ q ∈ (updatePlayer g pid (fun r => { r with isFinalTurn := true })).playerOrder,
        (lookupPlayer { updatePlayer g pid (fun r => { r with isFinalTurn := true }) with
          status := .finished } q).isSome = true := by
      intro q hm
      rw [lookupPlayer_setStatus, lookupPlayer_updatePlayer_isSome]
      exact hwf q hm
    obtain ⟨g', hrun, hst, _, _, hfinpres, _⟩ := promptEndLoop_spec _ _ hwf2
    refine ⟨g', hrun, ?_, ?_⟩
    · rw [hfinpres pid, lookupPlayer_setStatus, lookupPlayer_updatePlayer, hlp]
      simp
    · rw [hst]
  · intro hfin
    unfold checkEndGameAndAdvance
    simp only [hturn, hp2]
    rw [if_neg (by simp [hfin])]

/-- C7 witness (for the amended theorem). -/
theorem c7_final_flag_and_finish_witness :
    (checkEndGameAndAdvance gC7CE).map (fun g2 =>
      (g2.status, (lookupPlayer g2 "P1").map Player.isFinalTurn)) =
      some (.finished, some true) := by
  obtain ⟨g', hrun, hflag, hstat⟩ :=
    (c7_final_flag_and_finish gC7CE "P1" (mkPlayer "P1" 1 [none, none, none, none])
      (by decide) (by decide) (by decide) (by decide)).1 (by decide)
  rw [hrun]
  simp [hstat, hflag]

/-- C10: the guards of `draw_deck` and `draw_discard` never examine
`game.status`: for an arbitrary status (including `phase1` and
`finished`), an event from the player at `turnIndex` with no pending
drawn card and no ability in progress is accepted — `draw_deck` pops the
top of the deck into `drawnCard`, and `draw_discard` (when the discard
pile is non-empty) moves the top discard into the chosen hand slot. -/
theorem c10_draw_guards_ignore_status (g : Game) (sender : String) (i : Nat)
    (hturn : g.playerOrder[g.turnIndex]? = some sender)
    (hdrawn : g.drawnCard = none)
    (hab : g.activeAbility = none) :
    drawDeck g sender = some { g with drawnCard := g.deck.getLast?, deck := g.deck.dropLast } ∧
    (∀ p d, lookupPlayer g sender = some p → g.discardPile.getLast? = some d →
      wfPlayers g →
      ∃ g', drawDiscard g sender i = some g' ∧
        (lookupPlayer g' sender).map (fun q => (listGet q.hand i).map Card.id) =
          some (some d.id)) := by
  constructor
  · unfold drawDeck
    rw [if_neg (by simp [hturn]), if_neg (by simp [hdrawn, hab])]
  · intro p d hp hd hwf
    have hne : g.discardPile ≠ [] := by
      intro hnil
      rw [hnil] at hd
      exact Option.noConfusion hd
    have hp2 : findPlayer g.players sender = some p := hp
    obtain ⟨g', hrun, hids⟩ := handleDiscard_spec
      (updatePlayer { g with discardPile := g.discardPile.dropLast } sender (fun q => { q with hand := listSet q.hand i (some { d with isFaceUp := false, knownToPlayer := false }) }))
      (listGet p.hand i) sender
      (by show (g.playerOrder[g.turnIndex]?).isSome = true; rw [hturn]; rfl)
      (by intro q hm; rw [lookupPlayer_updatePlayer_isSome]; exact hwf q hm)
    refine ⟨g', ?_, ?_⟩
    · unfold drawDiscard
      rw [if_neg (by simp [hturn]), if_neg (by simp [hdrawn, hab, List.isEmpty_iff, hne])]
      simp only [hd, hp]
      exact hrun
    · have hg2 : lookupPlayer (updatePlayer { g with discardPile := g.discardPile.dropLast } sender (fun q => { q with hand := listSet q.hand i (some { d with isFaceUp := false, knownToPlayer := false }) })) sender = some { p with hand := listSet p.hand i (some { d with isFaceUp := false, knownToPlayer := false }) } := by
        rw [lookupPlayer_updatePlayer]
        rw [show lookupPlayer { g with discardPile := g.discardPile.dropLast } sender = lookupPlayer g sender from rfl, hp]
        simp
      have h3 : (lookupPlayer g' sender).map handIds = some (handIds { p with hand := listSet p.hand i (some { d with isFaceUp := false, knownToPlayer := false }) }) := by
        rw [hids sender, hg2]
        rfl
      cases hq : lookupPlayer g' sender with
      | none => rw [hq] at h3; exact Option.noConfusion h3
      | some q =>
        rw [hq] at h3
        have hqh : handIds q = handIds { p with hand := listSet p.hand i (some { d with isFaceUp := false, knownToPlayer := false }) } :=
          Option.some.inj h3
        show some ((listGet q.hand i).map Card.id) = some (some d.id)
        rw [listGet_eq_handIds, hqh]
        simp only [handIds, List.getElem?_map, listSet_getElem_self]
        rfl

/-- C6 (amended): resolving a King ability swaps the card in the
ability-holder's selected slot with the card in the selected opponent
slot unconditionally, the full card records — values and visibility
flags, unchanged — travel with the cards, and the handler then clears the
ability and runs the end-of-turn continuation.  The handler does not
reset `isFaceUp`/`knownToPlayer`: cards that were hidden stay hidden, but
a privately-known card stays privately known (see the counterexample). -/
theorem c6_king_swap_travels (g : Game) (sender opponentId : String)
    (myIndex oppIndex : Nat) (ab : Ability) (p1 p2 : Player)
    (hab : g.activeAbility = some ab)
    (habp : ab.player = sender)
    (habt : ab.type = "K")
    (hopp : opponentId ≠ sender)
    (hp1 : lookupPlayer g sender = some p1)
    (hp2 : lookupPlayer g opponentId = some p2) :
    (lookupPlayer (kSwapState g sender opponentId myIndex oppIndex p1 p2) sender).map
        (fun p => listGet p.hand myIndex) = some (listGet p2.hand oppIndex) ∧
    (lookupPlayer (kSwapState g sender opponentId myIndex oppIndex p1 p2) opponentId).map
        (fun p => listGet p.hand oppIndex) = some (listGet p1.hand myIndex) ∧
    playAbilityTarget g sender "K" myIndex opponentId oppIndex =
      checkEndGameAndAdvance
        { kSwapState g sender opponentId myIndex oppIndex p1 p2 with activeAbility := none } := by
  refine ⟨?_, ?_, ?_⟩
  · show (lookupPlayer (updatePlayer (updatePlayer g sender (fun p => { p with hand := listSet p.hand myIndex (listGet p2.hand oppIndex) })) opponentId (fun p => { p with hand := listSet p.hand oppIndex (listGet p1.hand myIndex) })) sender).map (fun p => listGet p.hand myIndex) = some (listGet p2.hand oppIndex)
    rw [lookupPlayer_updatePlayer, lookupPlayer_updatePlayer, hp1]
    simp [Ne.symm hopp, listGet_listSet]
  · show (lookupPlayer (updatePlayer (updatePlayer g sender (fun p => { p with hand := listSet p.hand myIndex (listGet p2.hand oppIndex) })) opponentId (fun p => { p with hand := listSet p.hand oppIndex (listGet p1.hand myIndex) })) opponentId).map (fun p => listGet p.hand oppIndex) = some (listGet p1.hand myIndex)
    rw [lookupPlayer_updatePlayer, lookupPlayer_updatePlayer, hp2]
    simp [hopp, listGet_listSet]
  · unfold playAbilityTarget
    simp only [hab]
    rw [if_neg (by simp [habp, habt])]
    simp only [hp1, hp2]
    rfl

/-- C6 witness (for the amended theorem). -/
theorem c6_king_swap_travels_witness :
    (lookupPlayer (kSwapState gC6CE "P1" "P2" 0 0
        (mkPlayer "P1" 1 [some cKnown, some (mkCard "3" "hearts"), none, none])
        (mkPlayer "P2" 2 [some (mkCard "9" "clubs"), some (mkCard "4" "clubs"), none, none])) "P2").map
      (fun p => listGet p.hand 0) = some (some cKnown) :=
  (c6_king_swap_travels gC6CE "P1" "P2" 0 0 { type := "K", player := "P1" }
    (mkPlayer "P1" 1 [some cKnown, some (mkCard "3" "hearts"), none, none])
    (mkPlayer "P2" 2 [some (mkCard "9" "clubs"), some (mkCard "4" "clubs"), none, none])
    rfl rfl rfl (by decide) rfl rfl).2.1

/-- C8 (amended): a mismatched stack execution moves no card out of the
target's hand (all hands other than the caller's are untouched), leaves
the discard pile unchanged, closes the window, and appends exactly one
face-down, not-privately-known penalty card from the top of the deck to
the caller's hand when the deck is non-empty; from an exhausted deck no
penalty card is produced and the caller's hand is unchanged.  Status,
turn, pending drawn card and ability are untouched. -/
theorem c8_stack_mismatch (g : Game) (sender targetId : String) (idx : Nat)
    (give : Option Nat) (tp cp : Player) (c : Card)
    (hact : g.stackWindow.active = true)
    (hcaller : g.stackWindow.caller = some sender)
    (htp : lookupPlayer g targetId = some tp)
    (hcp : lookupPlayer g sender = some cp)
    (hchosen : listGet tp.hand idx = some c)
    (hmm : ¬ (some c.value = g.stackWindow.targetValue)) :
    executeStack g sender targetId idx give = some (stackMismatchState g sender) ∧
    (stackMismatchState g sender).discardPile = g.discardPile ∧
    (stackMismatchState g sender).stackWindow =
      { active := false, caller := none, targetValue := none } ∧
    (stackMismatchState g sender).deck = g.deck.dropLast ∧
    (∀ k, k ≠ sender → lookupPlayer (stackMismatchState g sender) k = lookupPlayer g k) ∧
    (lookupPlayer (stackMismatchState g sender) sender).map Player.hand =
      some (cp.hand ++ (match g.deck.getLast? with
        | some pc => [some { pc with isFaceUp := false, knownToPlayer := false }]
        | none => [])) ∧
    (stackMismatchState g sender).status = g.status ∧
    (stackMismatchState g sender).drawnCard = g.drawnCard ∧
    (stackMismatchState g sender).activeAbility = g.activeAbility ∧
    (stackMismatchState g sender).turnIndex = g.turnIndex := by
  have heq : executeStack g sender targetId idx give = some (stackMismatchState g sender) := by
    unfold executeStack
    rw [if_neg (by simp [hact, hcaller])]
    simp only [htp, hcp, hchosen]
    rw [if_neg hmm]
  by_cases hdk : g.deck.isEmpty = true
  · have hnil : g.deck = [] := List.isEmpty_iff.mp hdk
    have hstate : stackMismatchState g sender =
        { g with stackWindow := { active := false, caller := none, targetValue := none } } := by
      unfold stackMismatchState
      rw [if_pos hdk]
    refine ⟨heq, ?_, ?_, ?_, ?_, ?_, ?_, ?_, ?_, ?_⟩ <;> rw [hstate] <;> try rfl
    · rw [hnil]
      rfl
    · intro k _
      rfl
    · show (lookupPlayer g sender).map Player.hand = _
      rw [hcp, hnil]
      simp
  · have hne2 : g.deck ≠ [] := by
      intro hnil
      rw [hnil] at hdk
      exact hdk rfl
    obtain ⟨pc, hpc⟩ := Option.isSome_iff_exists.mp (List.getLast?_isSome.mpr hne2)
    have hstate : stackMismatchState g sender =
        { updatePlayer { g with deck := g.deck.dropLast } sender (fun p => { p with hand := p.hand ++ [some { pc with isFaceUp := false, knownToPlayer := false }] }) with stackWindow := { active := false, caller := none, targetValue := none } } := by
      unfold stackMismatchState
      rw [if_neg (by simp [hdk])]
      simp only [hpc]
    refine ⟨heq, ?_, ?_, ?_, ?_, ?_, ?_, ?_, ?_, ?_⟩ <;> rw [hstate] <;> try rfl
    · intro k hk
      show lookupPlayer (updatePlayer { g with deck := g.deck.dropLast } sender (fun p => { p with hand := p.hand ++ [some { pc with isFaceUp := false, knownToPlayer := false }] })) k = lookupPlayer g k
      rw [lookupPlayer_updatePlayer]
      rw [show lookupPlayer { g with deck := g.deck.dropLast } k = lookupPlayer g k from rfl]
      cases lookupPlayer g k <;> simp [hk]
    · show (lookupPlayer (updatePlayer { g with deck := g.deck.dropLast } sender (fun p => { p with hand := p.hand ++ [some { pc with isFaceUp := false, knownToPlayer := false }] })) sender).map Player.hand = _
      rw [lookupPlayer_updatePlayer]
      rw [show lookupPlayer { g with deck := g.deck.dropLast } sender = lookupPlayer g sender from rfl, hcp]
      simp only [hpc]
      simp

/-- C8 witness (for the amended theorem): the deck-non-empty case, where
the penalty card is appended. -/
theorem c8_stack_mismatch_witness :
    executeStack gC5CE "P1" "P1" 1 none = some (stackMismatchState gC5CE "P1") ∧
    (lookupPlayer (stackMismatchState gC5CE "P1") "P1").map Player.hand =
      some ((mkPlayer "P1" 1 [some (mkCard "2" "hearts"), some (mkCard "3" "hearts"), none, none]).hand ++
        [some { mkCard "4" "hearts" with isFaceUp := false, knownToPlayer := false }]) := by
  have h := c8_stack_mismatch gC5CE "P1" "P1" 1 none
    (mkPlayer "P1" 1 [some (mkCard "2" "hearts"), some (mkCard "3" "hearts"), none, none])
    (mkPlayer "P1" 1 [some (mkCard "2" "hearts"), some (mkCard "3" "hearts"), none, none])
    (mkCard "3" "hearts") rfl rfl rfl rfl (by decide) (by decide)
  exact ⟨h.1, h.2.2.2.2.2.1⟩

/-- C10 witness: the acceptance in particular holds when `status` is
`finished`. -/
theorem c10_draw_guards_ignore_status_witness :
    gC10W.status = .finished ∧
    drawDeck gC10W "P1" =
      some { gC10W with drawnCard := gC10W.deck.getLast?, deck := gC10W.deck.dropLast } ∧
    ((drawDiscard gC10W "P1" 0).bind (fun g2 => lookupPlayer g2 "P1")).map
      (fun q => (listGet q.hand 0).map Card.id) = some (some "9_spades") := by
  refine ⟨rfl, (c10_draw_guards_ignore_status gC10W "P1" 0 (by decide) rfl rfl).1, ?_⟩
  obtain ⟨g', h1, h2⟩ := (c10_draw_guards_ignore_status gC10W "P1" 0 (by decide) rfl rfl).2
    (mkPlayer "P1" 1 [some (mkCard "2" "hearts"), none, none, none])
    ({ mkCard "9" "spades" with isFaceUp := true })
    (by decide) (by decide) (by decide)
  rw [h1]
  exact h2

theorem findPlayer_map (ps : List (String × Player)) (f : String → Player → Player)
    (k : String) :
    findPlayer (ps.map (fun e => (e.1, f e.1 e.2))) k = (findPlayer ps k).map (f k) := by
  induction ps with
  | nil => rfl
  | cons e rest ih =>
    by_cases hk : e.1 = k
    · subst hk
      simp [findPlayer, List.find?_cons_of_pos]
    · simp only [findPlayer, List.map_cons] at *
      rw [List.find?_cons_of_neg _ (by simp [hk]), List.find?_cons_of_neg _ (by simp [hk])]
      exact ih

theorem listMapIdxGo_getElem (f : Nat → Option Card → Option Card) :
    ∀ (l : List (Option Card)) (s j : Nat),
      (listMapIdxGo f s l)[j]? = (l[j]?).map (f (s + j)) := by
  intro l
  induction l with
  | nil =>
    intro s j
    simp [listMapIdxGo]
  | cons c rest ih =>
    intro s j
    cases j with
    | zero => simp [listMapIdxGo]
    | succ j2 =>
      simp only [listMapIdxGo, List.getElem?_cons_succ]
      rw [ih (s + 1) j2]
      have harith : s + 1 + j2 = s + (j2 + 1) := by omega
      rw [harith]

/-- The per-slot redaction agrees with the spec-side `Entitled` predicate:
a face-down card is replaced by the sentinel exactly when the viewer is
not entitled to it, and is passed through unchanged otherwise. -/
theorem sanitizeCardSlot_spec (st : Status) (viewerId pid : String) (i : Nat)
    (co : Option Card) :
    sanitizeCardSlot st viewerId pid i co = specRedactSlot st viewerId pid i co := by
  cases co with
  | none => rfl
  | some c =>
    simp only [sanitizeCardSlot, specRedactSlot, Entitled]
    split_ifs <;> first | rfl | tauto

/-- C1 (amended): for every game whose status is phase1, playing or
finished (in lobby the sanitizer passes the state through unredacted, and
reachable lobby states hold no cards), the snapshot for a viewer replaces
the rank, suit and identity of a face-down hand card with the unknown
sentinel exactly when the viewer is not entitled to it — owner during
phase1 on slots 2–3, owner of a `knownToPlayer` card, non-owner of a
`knownToOpponent` card, or any viewer once the status is finished — and
while the status is not finished the drawn card is replaced with the
sentinel for every viewer other than the active player. -/
theorem c1_sanitizer_redacts (g : Game) (viewerId pid : String) (pl : Player)
    (i : Nat) (co : Option Card)
    (hst : g.status ≠ .lobby)
    (hlp : lookupPlayer g pid = some pl)
    (hslot : pl.hand[i]? = some co) :
    (∃ pl2, lookupPlayer (sanitizeGameState g viewerId) pid = some pl2 ∧
      pl2.hand[i]? = some (specRedactSlot g.status viewerId pid i co)) ∧
    (∀ dc, g.drawnCard = some dc → g.status ≠ .finished →
      g.playerOrder[g.turnIndex]? ≠ some viewerId →
      (sanitizeGameState g viewerId).drawnCard =
        some { dc with value := "?", suit := "?", id := "hidden_drawn" }) := by
  have hplay : g.status = .playing ∨ g.status = .phase1 ∨ g.status = .finished := by
    revert hst
    cases g.status <;> simp
  have hps : (sanitizeGameState g viewerId).players = g.players.map (fun e =>
      (e.1, { e.2 with hand := listMapIdxGo (sanitizeCardSlot g.status viewerId e.1) 0 e.2.hand })) := by
    unfold sanitizeGameState
    rw [if_pos hplay]
    cases g.drawnCard with
    | none => rfl
    | some dc =>
      dsimp only
      split <;> rfl
  have hmain : lookupPlayer (sanitizeGameState g viewerId) pid =
      some { pl with hand := listMapIdxGo (sanitizeCardSlot g.status viewerId pid) 0 pl.hand } := by
    show findPlayer (sanitizeGameState g viewerId).players pid = _
    rw [hps]
    rw [findPlayer_map g.players
      (fun k p => { p with hand := listMapIdxGo (sanitizeCardSlot g.status viewerId k) 0 p.hand }) pid]
    rw [show findPlayer g.players pid = some pl from hlp]
    rfl
  constructor
  · refine ⟨{ pl with hand := listMapIdxGo (sanitizeCardSlot g.status viewerId pid) 0 pl.hand }, hmain, ?_⟩
    show (listMapIdxGo (sanitizeCardSlot g.status viewerId pid) 0 pl.hand)[i]? = _
    rw [listMapIdxGo_getElem (sanitizeCardSlot g.status viewerId pid) pl.hand 0 i, hslot]
    show some (sanitizeCardSlot g.status viewerId pid (0 + i) co) = _
    rw [Nat.zero_add, sanitizeCardSlot_spec]
  · intro dc hdc hnf hnv
    unfold sanitizeGameState
    rw [if_pos hplay]
    simp only [hdc]
    rw [if_pos ⟨hnv, hnf⟩]

/-- C1 witness (for the amended theorem): in a playing-status game a
face-down, unflagged card of one player serializes to the sentinel for
the other player. -/
theorem c1_sanitizer_redacts_witness :
    (lookupPlayer (sanitizeGameState gC8CE "P1") "P2").map (fun p => p.hand[0]?) =
      some (some (some (hiddenHandCard 0 (mkCard "5" "clubs")))) := by
  obtain ⟨pl2, h1, h2⟩ := (c1_sanitizer_redacts gC8CE "P1" "P2"
    (mkPlayer "P2" 2 [some (mkCard "5" "clubs"), none, none, none]) 0
    (some (mkCard "5" "clubs")) (by decide) (by decide) (by decide)).1
  rw [h1]
  show some pl2.hand[0]? = _
  rw [h2]
  decide

/-! ## C5: the successful-match branch of `execute_stack` -/

theorem stackMatchMove_discardPile (g : Game) (sender targetId : String)
    (idx : Nat) (give : Option Nat) (cp : Player) (c : Card) :
    (stackMatchMove g sender targetId idx give cp c).discardPile =
      g.discardPile ++ [{ c with isFaceUp := true }] := by
  unfold stackMatchMove
  dsimp only
  split
  · split
    · rfl
    · split <;> rfl
  · rfl

theorem stackMatchMove_playerOrder (g : Game) (sender targetId : String)
    (idx : Nat) (give : Option Nat) (cp : Player) (c : Card) :
    (stackMatchMove g sender targetId idx give cp c).playerOrder = g.playerOrder := by
  unfold stackMatchMove
  dsimp only
  split
  · split
    · rfl
    · split <;> rfl
  · rfl

theorem findPlayer_mapUpdate_isSome (ps : List (String × Player)) (pid k : String)
    (f : Player → Player) :
    (findPlayer (mapUpdatePlayers ps pid f) k).isSome = (findPlayer ps k).isSome := by
  rw [findPlayer_mapUpdate]
  cases findPlayer ps k <;> simp

theorem stackMatchMove_lookup_isSome (g : Game) (sender targetId : String)
    (idx : Nat) (give : Option Nat) (cp : Player) (c : Card) (k : String) :
    (lookupPlayer (stackMatchMove g sender targetId idx give cp c) k).isSome =
      (lookupPlayer g k).isSome := by
  unfold stackMatchMove
  dsimp only
  split
  · split
    · simp [lookupPlayer, updatePlayer, findPlayer_mapUpdate_isSome]
    · split <;> simp [lookupPlayer, updatePlayer, findPlayer_mapUpdate_isSome]
  · simp [lookupPlayer, updatePlayer, findPlayer_mapUpdate_isSome]

theorem stackMatchState_players (g : Game) (sender targetId : String)
    (idx : Nat) (give : Option Nat) (cp : Player) (c : Card) :
    (stackMatchState g sender targetId idx give cp c).players =
      (stackMatchMove g sender targetId idx give cp c).players := by
  unfold stackMatchState
  dsimp only
  split
  · split <;> rfl
  · rfl

theorem stackMatchState_lookup (g : Game) (sender targetId : String)
    (idx : Nat) (give : Option Nat) (cp : Player) (c : Card) (k : String) :
    lookupPlayer (stackMatchState g sender targetId idx give cp c) k =
      lookupPlayer (stackMatchMove g sender targetId idx give cp c) k := by
  show findPlayer (stackMatchState g sender targetId idx give cp c).players k = _
  rw [stackMatchState_players]
  rfl

theorem stackMatchState_playerOrder (g : Game) (sender targetId : String)
    (idx : Nat) (give : Option Nat) (cp : Player) (c : Card) :
    (stackMatchState g sender targetId idx give cp c).playerOrder = g.playerOrder := by
  unfold stackMatchState
  dsimp only
  split
  · split
    · exact stackMatchMove_playerOrder g sender targetId idx give cp c
    · exact stackMatchMove_playerOrder g sender targetId idx give cp c
  · exact stackMatchMove_playerOrder g sender targetId idx give cp c

theorem stackMatchState_discardPile (g : Game) (sender targetId : String)
    (idx : Nat) (give : Option Nat) (cp : Player) (c : Card) :
    (stackMatchState g sender targetId idx give cp c).discardPile =
      g.discardPile ++ [{ c with isFaceUp := true }] := by
  unfold stackMatchState
  dsimp only
  split
  · split
    · exact stackMatchMove_discardPile g sender targetId idx give cp c
    · exact stackMatchMove_discardPile g sender targetId idx give cp c
  · exact stackMatchMove_discardPile g sender targetId idx give cp c

/-- Closed form of the ability field after a successful match. -/
theorem stackMatchState_aa (g : Game) (sender targetId : String)
    (idx : Nat) (give : Option Nat) (cp : Player) (c : Card) :
    (stackMatchState g sender targetId idx give cp c).activeAbility =
      (if (c.value == "K" || c.value == "J" || c.value == "8" || c.value == "6") = true then
        (if (c.value == "8" ||
            ((((lookupPlayer (stackMatchMove g sender targetId idx give cp c) sender).map
              Player.hand).getD []).any Option.isSome)) = true then
          some { type := c.value, player := sender }
        else none)
      else none) := by
  unfold stackMatchState
  dsimp only
  split
  · split
    · rename_i h1 h2
      have h2b : (c.value == "8" ||
          ((((lookupPlayer (stackMatchMove g sender targetId idx give cp c) sender).map
            Player.hand).getD []).any Option.isSome)) = true := h2
      rw [if_pos h2b]
    · rename_i h1 h2
      have h2b : ¬ ((c.value == "8" ||
          ((((lookupPlayer (stackMatchMove g sender targetId idx give cp c) sender).map
            Player.hand).getD []).any Option.isSome)) = true) := h2
      rw [if_neg h2b]
  · rfl

/-- C5 (amended): when the stack caller executes a stack and the chosen
card's rank equals the window's target value, the chosen card moves
face-up to the top of the discard pile; if the target was the opponent,
the caller's nominated card (when that slot holds one) moves into the
vacated slot face-down with `knownToPlayer` cleared; any in-progress
ability is cancelled (afterwards the ability is either empty or the
freshly inherited one); and the caller inherits a new `activeAbility` for
the matched rank exactly when that rank is 8, or the rank is K, J or 6
and the caller still holds at least one card — except that the handler
then routes through the empty-hand check: if a hand has become entirely
empty the game ends immediately and the inherited ability is cleared. -/
theorem c5_stack_match_resolution (g : Game) (sender targetId : String)
    (idx : Nat) (give : Option Nat) (tp cp : Player) (c : Card)
    (hact : g.stackWindow.active = true)
    (hcaller : g.stackWindow.caller = some sender)
    (htp : lookupPlayer g targetId = some tp)
    (hcp : lookupPlayer g sender = some cp)
    (hchosen : listGet tp.hand idx = some c)
    (hmatch : some c.value = g.stackWindow.targetValue) :
    (stackMatchState g sender targetId idx give cp c).discardPile =
      g.discardPile ++ [{ c with isFaceUp := true }] ∧
    (∀ gi gc, targetId ≠ sender → give = some gi → listGet cp.hand gi = some gc →
      (lookupPlayer (stackMatchState g sender targetId idx give cp c) targetId).map
        (fun p => listGet p.hand idx) =
        some (some { gc with isFaceUp := false, knownToPlayer := false })) ∧
    ((stackMatchState g sender targetId idx give cp c).activeAbility = none ∨
      (stackMatchState g sender targetId idx give cp c).activeAbility =
        some { type := c.value, player := sender }) ∧
    ((stackMatchState g sender targetId idx give cp c).activeAbility =
        some { type := c.value, player := sender } ↔
      (c.value = "8" ∨
        ((c.value = "K" ∨ c.value = "J" ∨ c.value = "6") ∧
          ∃ p2, lookupPlayer (stackMatchState g sender targetId idx give cp c) sender = some p2 ∧
            p2.hand.any Option.isSome = true))) ∧
    executeStack g sender targetId idx give =
      (match anyEmptyCheck { stackMatchState g sender targetId idx give cp c with
          stackWindow := { active := false, caller := none, targetValue := none } }
          ({ stackMatchState g sender targetId idx give cp c with
            stackWindow := { active := false, caller := none, targetValue := none } } : Game).playerOrder with
       | none => none
       | some true => promptEndGame { { stackMatchState g sender targetId idx give cp c with
           stackWindow := { active := false, caller := none, targetValue := none } } with
           activeAbility := none }
       | some false =>
         if ({ stackMatchState g sender targetId idx give cp c with
             stackWindow := { active := false, caller := none, targetValue := none } } : Game).activeAbility.isNone then
           checkEndGameAndAdvance { stackMatchState g sender targetId idx give cp c with
             stackWindow := { active := false, caller := none, targetValue := none } }
         else some { stackMatchState g sender targetId idx give cp c with
           stackWindow := { active := false, caller := none, targetValue := none } }) := by
  refine ⟨stackMatchState_discardPile g sender targetId idx give cp c, ?_, ?_, ?_, ?_⟩
  · intro gi gc hne hgive hgc
    rw [stackMatchState_lookup]
    unfold stackMatchMove
    dsimp only
    rw [if_pos hne]
    simp only [hgive, hgc]
    rw [lookupPlayer_updatePlayer, lookupPlayer_updatePlayer, lookupPlayer_setDiscard,
      lookupPlayer_updatePlayer, htp]
    simp [hne, listGet_listSet]
  · rw [stackMatchState_aa]
    split_ifs <;> simp
  · rw [stackMatchState_aa]
    constructor
    · intro haa
      by_cases h1 : (c.value == "K" || c.value == "J" || c.value == "8" || c.value == "6") = true
      · rw [if_pos h1] at haa
        by_cases h2 : (c.value == "8" ||
            ((((lookupPlayer (stackMatchMove g sender targetId idx give cp c) sender).map
              Player.hand).getD []).any Option.isSome)) = true
        · by_cases h8 : c.value = "8"
          · exact Or.inl h8
          · right
            constructor
            · have h1b := h1
              simp only [Bool.or_eq_true, beq_iff_eq] at h1b
              rcases h1b with ((h | h) | h) | h
              · exact Or.inl h
              · exact Or.inr (Or.inl h)
              · exact absurd h h8
              · exact Or.inr (Or.inr h)
            · have hsome : (lookupPlayer (stackMatchMove g sender targetId idx give cp c) sender).isSome = true := by
                rw [stackMatchMove_lookup_isSome, hcp]
                rfl
              obtain ⟨p2, hp2⟩ := Option.isSome_iff_exists.mp hsome
              refine ⟨p2, ?_, ?_⟩
              · rw [stackMatchState_lookup]
                exact hp2
              · have h2b := h2
                simp only [Bool.or_eq_true, beq_iff_eq] at h2b
                rcases h2b with h | h
                · exact absurd h h8
                · rw [hp2] at h
                  exact h
        · rw [if_neg h2] at haa
          exact absurd haa (by simp)
      · rw [if_neg h1] at haa
        exact absurd haa (by simp)
    · intro hr
      rcases hr with h8 | ⟨hkj6, p2, hp2, hany⟩
      · rw [if_pos (by simp [h8]), if_pos (by simp [h8])]
      · have h1 : (c.value == "K" || c.value == "J" || c.value == "8" || c.value == "6") = true := by
          rcases hkj6 with h | h | h <;> simp [h]
        rw [if_pos h1]
        have hp2b : lookupPlayer (stackMatchMove g sender targetId idx give cp c) sender = some p2 := by
          rw [← stackMatchState_lookup]
          exact hp2
        rw [if_pos (by rw [hp2b]; simp [hany])]
  · unfold executeStack
    rw [if_neg (by simp [hact, hcaller])]
    simp only [htp, hcp, hchosen]
    rw [if_pos hmatch]

/-- C5 witness (for the amended theorem): the matched card lands face-up
on the discard pile. -/
theorem c5_stack_match_resolution_witness :
    (stackMatchState gC5CE "P1" "P2" 0 none
        (mkPlayer "P1" 1 [some (mkCard "2" "hearts"), some (mkCard "3" "hearts"), none, none])
        (mkCard "8" "clubs")).discardPile =
      gC5CE.discardPile ++ [{ mkCard "8" "clubs" with isFaceUp := true }] :=
  (c5_stack_match_resolution gC5CE "P1" "P2" 0 none
    (mkPlayer "P2" 2 [some (mkCard "8" "clubs"), none, none, none])
    (mkPlayer "P1" 1 [some (mkCard "2" "hearts"), some (mkCard "3" "hearts"), none, none])
    (mkCard "8" "clubs") rfl rfl (by decide) (by decide) (by decide) (by decide)).1

end Cambio
